import Mathlib

/-!
Verification of the PR Review Assigner engine (Go service layer in
`internal/service` over the repository contract in `internal/repo`).

The directory store is embedded as an explicit relational state (`Store`)
mirroring the SQL tables used by `internal/repo` (users, teams,
team_members, prs, pr_reviewers, assignment_events).  The service-layer
functions (`CreatePR`, `MergePR`, `ReassignReviewer`, `CreateTeam`,
`BulkDeactivateTeam`, `GetStats`, `SetUserActive`) are translated as pure
state-passing functions.  Randomness (`rand.Shuffle` for initial
assignment, `ORDER BY RANDOM() LIMIT 1` for reassignment) is passed in as
an explicit `shuffle` function parameter; theorems that depend on the
picked element being a genuine candidate assume `shuffle` permutes its
input, which Go's in-place shuffle and SQL's ORDER BY RANDOM() guarantee.
-/

namespace PRReview

/-- Mirrors `repo.User` (`id`, `name`, `is_active`). The `TeamName`
convenience field is presentation-only and is not part of the store. -/
structure User where
  id : String
  name : String
  isActive : Bool
deriving DecidableEq

/-- Mirrors `repo.Team` (`id` serial, unique `name`). -/
structure Team where
  id : Nat
  name : String
deriving DecidableEq

/-- Mirrors `repo.TeamMember` request records used by `CreateTeam`. -/
structure TeamMember where
  userID : String
  username : String
  isActive : Bool
deriving DecidableEq

/-- A row of the `prs` table: `repo.PR` without the non-persisted
`Reviewers` field (db tag `-`). -/
structure PRRow where
  id : String
  title : String
  authorID : String
  status : String
deriving DecidableEq

/-- Mirrors `repo.PR` as returned by the service layer: a PR row together
with the reviewer list populated by the handler path. -/
structure PR where
  id : String
  title : String
  authorID : String
  status : String
  reviewers : List User
deriving DecidableEq

/-- The relational state of the directory store: one field per SQL table.
`teamMembers` holds (team_id, user_id) pairs, `prReviewers` holds
(pr_id, user_id) pairs (unique per pair: the insert is
ON CONFLICT DO NOTHING), `assignments` is the append-only
assignment_events table as (pr_id, user_id) pairs. -/
structure Store where
  users : List User
  teams : List Team
  teamMembers : List (Nat × String)
  prs : List PRRow
  prReviewers : List (String × String)
  assignments : List (String × String)
deriving DecidableEq

/-- The empty database. -/
def emptyStore : Store := ⟨[], [], [], [], [], []⟩

/-! ### Repository layer (`internal/repo`) -/

/-- `Repo.GetUserByID`: SELECT from users by id. -/
def getUserByID (st : Store) (userID : String) : Option User :=
  st.users.find? (fun u => u.id == userID)

/-- `Repo.CreateUser`: INSERT ... ON CONFLICT (id) DO UPDATE SET name.
A fresh row is active (the in-repo mock creates users with
`IsActive: true`; `CreateTeam` always overwrites the flag right after). -/
def createUser (st : Store) (userID username : String) : Store :=
  if st.users.any (fun u => u.id == userID) then
    { st with users := st.users.map (fun u => if u.id == userID then { u with name := username } else u) }
  else
    { st with users := st.users ++ [⟨userID, username, true⟩] }

/-- `Repo.SetUserActive`: UPDATE users SET is_active. -/
def setUserActive (st : Store) (userID : String) (active : Bool) : Store :=
  { st with users := st.users.map (fun u => if u.id == userID then { u with isActive := active } else u) }

/-- `Repo.TeamExists`: COUNT teams with the name. -/
def teamExists (st : Store) (name : String) : Bool :=
  st.teams.any (fun t => t.name == name)

/-- `Repo.CreateTeam`: INSERT INTO teams RETURNING id (serial id, modelled
as in the in-repo mock: one past the current table size). -/
def createTeamRow (st : Store) (name : String) : Store × Nat :=
  let newID := st.teams.length + 1
  ({ st with teams := st.teams ++ [⟨newID, name⟩] }, newID)

/-- `Repo.AddMember`: INSERT INTO team_members ON CONFLICT DO NOTHING. -/
def addMember (st : Store) (teamID : Nat) (userID : String) : Store :=
  if st.teamMembers.contains (teamID, userID) then st
  else { st with teamMembers := st.teamMembers ++ [(teamID, userID)] }

/-- `Repo.GetTeamByName`: SELECT from teams by name. -/
def getTeamByName (st : Store) (name : String) : Option Team :=
  st.teams.find? (fun t => t.name == name)

/-- Membership of a user in the team of the given name (the
teams ⋈ team_members join used by several queries). -/
def userInTeam (st : Store) (teamName userID : String) : Bool :=
  st.teams.any (fun t => t.name == teamName && st.teamMembers.contains (t.id, userID))

/-- `Repo.GetTeamMembers`: users joined through team_members for a team name. -/
def getTeamMembers (st : Store) (teamName : String) : List User :=
  st.users.filter (fun u => userInTeam st teamName u.id)

/-- `Repo.GetActiveTeamMembersExcept`: members of the team that are active
and differ from the excluded user. -/
def getActiveTeamMembersExcept (st : Store) (teamName excludeUserID : String) : List User :=
  st.users.filter (fun u =>
    u.isActive && u.id != excludeUserID && userInTeam st teamName u.id)

/-- `Repo.GetUserTeam`: teams ⋈ team_members WHERE user_id LIMIT 1 — the
first team (in table order) the user belongs to, none if the user is in
no team (db.Get then surfaces sql.ErrNoRows). -/
def getUserTeam (st : Store) (userID : String) : Option String :=
  (st.teams.find? (fun t => st.teamMembers.contains (t.id, userID))).map (fun t => t.name)

/-- `Repo.PRExists`: COUNT prs with the id. -/
def prExists (st : Store) (prID : String) : Bool :=
  st.prs.any (fun p => p.id == prID)

/-- `Repo.GetPRByID`: SELECT from prs by id. -/
def getPRByID (st : Store) (prID : String) : Option PRRow :=
  st.prs.find? (fun p => p.id == prID)

/-- `Repo.CreatePRWithID`: INSERT INTO prs; status defaults to OPEN
(spec §4.4: initial state on creation is always OPEN; the in-repo mock
creates with status OPEN). -/
def createPRWithID (st : Store) (prID title authorID : String) : Store :=
  { st with prs := st.prs ++ [⟨prID, title, authorID, "OPEN"⟩] }

/-- `Repo.AddReviewer`: INSERT INTO pr_reviewers ON CONFLICT DO NOTHING. -/
def addReviewer (st : Store) (prID userID : String) : Store :=
  if st.prReviewers.contains (prID, userID) then st
  else { st with prReviewers := st.prReviewers ++ [(prID, userID)] }

/-- `Repo.RemoveReviewer`: DELETE FROM pr_reviewers WHERE pr_id AND user_id. -/
def removeReviewer (st : Store) (prID userID : String) : Store :=
  { st with prReviewers := st.prReviewers.filter (fun x => !(x.1 == prID && x.2 == userID)) }

/-- `Repo.GetPRReviewers`: pr_reviewers ⋈ users for a PR — the user rows
behind the reviewer bindings (a binding whose user row is absent joins
away). -/
def getPRReviewers (st : Store) (prID : String) : List User :=
  ((st.prReviewers.filter (fun x => x.1 == prID)).map (fun x => x.2)).filterMap
    (getUserByID st)

/-- `Repo.SetPRStatus`: UPDATE prs SET status WHERE id. -/
def setPRStatus (st : Store) (prID status : String) : Store :=
  { st with prs := st.prs.map (fun p => if p.id == prID then { p with status := status } else p) }

/-- `Repo.GetRandomActiveTeamMember`: active team members except one,
ORDER BY RANDOM() LIMIT 1 — the head of a caller-supplied reordering of
the candidate list (none exactly when there is no candidate). -/
def getRandomActiveTeamMember (st : Store) (teamName excludeUserID : String)
    (shuffle : List User → List User) : Option User :=
  (shuffle (getActiveTeamMembersExcept st teamName excludeUserID)).head?

/-- `Repo.AddAssignmentEvent`: INSERT INTO assignment_events. -/
def addAssignmentEvent (st : Store) (prID userID : String) : Store :=
  { st with assignments := st.assignments ++ [(prID, userID)] }

/-- `Repo.GetAssignmentStats`: SELECT user_id, COUNT(*) FROM
assignment_events GROUP BY user_id, as an association list from user id
to its event count. -/
def getAssignmentStats (st : Store) : List (String × Nat) :=
  ((st.assignments.map (fun e => e.2)).dedup).map
    (fun uid => (uid, (st.assignments.filter (fun e => e.2 == uid)).length))

/-- `Repo.DeactivateTeamMembers`: UPDATE users SET is_active = false WHERE
id IN (SELECT user_id FROM team_members WHERE team_id = $1). -/
def deactivateTeamMembers (st : Store) (teamID : Nat) : Store :=
  { st with users := st.users.map (fun u => if st.teamMembers.contains (teamID, u.id) then { u with isActive := false } else u) }

/-! ### Service layer (`internal/service`) -/

/-- The typed error taxonomy of `internal/service`, plus `internalMsg`
for the untyped `errors.New` failures the service constructs inline. -/
inductive SvcError where
  | errTeamExists
  | errPRExists
  | errPRMerged
  | errNotAssigned
  | errNoCandidate
  | errNotFound
  | internalMsg (msg : String)
deriving DecidableEq

/-- `Service.CreateTeam`: reject duplicates, create the team row, then for
each member create-or-update the user, set its active flag and bind it to
the team (in that order, as in the Go loop). -/
def CreateTeam (st : Store) (teamName : String) (members : List TeamMember) :
    Except SvcError Unit × Store :=
  if teamExists st teamName then (.error .errTeamExists, st)
  else
    let p := createTeamRow st teamName
    let st2 := members.foldl
      (fun s m => addMember (setUserActive (createUser s m.userID m.username)
        m.userID m.isActive) p.2 m.userID) p.1
    (.ok (), st2)

/-- `Service.SetUserActive`: look the user up (NotFound when absent), set
the flag, and return the updated user decorated with its team name. -/
def SetUserActiveSvc (st : Store) (userID : String) (active : Bool) :
    Except SvcError User × Store :=
  match getUserByID st userID with
  | none => (.error .errNotFound, st)
  | some u =>
    let st2 := setUserActive st userID active
    (.ok { u with isActive := active }, st2)

/-- `Service.assignReviewers`: the active team members except the author,
shuffled in place, with up to the first 2 taken. -/
def assignReviewers (st : Store) (teamName excludeUserID : String)
    (shuffle : List User → List User) : List User :=
  let candidates := getActiveTeamMembersExcept st teamName excludeUserID
  if candidates.length == 0 then []
  else
    let shuffled := shuffle candidates
    shuffled.take (min 2 shuffled.length)

/-- `Service.CreatePR`: duplicate-id check, author lookup, author-team
resolution (an untyped "author has no team" error when the author is in
no team), PR insertion with status OPEN, then reviewer selection and one
AddReviewer + AddAssignmentEvent per selected candidate.  The returned PR
carries the selected candidate list. -/
def CreatePR (st : Store) (prID prName authorID : String)
    (shuffle : List User → List User) : Except SvcError PR × Store :=
  if prExists st prID then (.error .errPRExists, st)
  else
    match getUserByID st authorID with
    | none => (.error .errNotFound, st)
    | some _ =>
      match getUserTeam st authorID with
      | none => (.error (.internalMsg "author has no team"), st)
      | some teamName =>
        let st1 := createPRWithID st prID prName authorID
        let reviewers := assignReviewers st1 teamName authorID shuffle
        let st2 := reviewers.foldl
          (fun s r => addAssignmentEvent (addReviewer s prID r.id) prID r.id) st1
        (.ok ⟨prID, prName, authorID, "OPEN", reviewers⟩, st2)

/-- `Service.MergePR`: NotFound when absent; on an already-MERGED PR
return the current state unchanged; otherwise set the status to MERGED
and return the PR with its reviewer list. -/
def MergePR (st : Store) (prID : String) : Except SvcError PR × Store :=
  match getPRByID st prID with
  | none => (.error .errNotFound, st)
  | some pr =>
    if pr.status == "MERGED" then
      (.ok ⟨pr.id, pr.title, pr.authorID, pr.status, getPRReviewers st prID⟩, st)
    else
      let st1 := setPRStatus st prID "MERGED"
      (.ok ⟨pr.id, pr.title, pr.authorID, "MERGED", getPRReviewers st1 prID⟩, st1)

/-- `Service.ReassignReviewer`: NotFound when the PR is absent, PRMerged
on a MERGED PR, NotAssigned when the old reviewer is not bound, an
untyped "old reviewer has no team" error when the old reviewer is in no
team, NoCandidate when the random pick finds nobody; otherwise remove the
old binding, add the new one, append one assignment event, and return the
refreshed PR together with the new reviewer's id. -/
def ReassignReviewer (st : Store) (prID oldUserID : String)
    (shuffle : List User → List User) : Except SvcError (PR × String) × Store :=
  match getPRByID st prID with
  | none => (.error .errNotFound, st)
  | some pr =>
    if pr.status == "MERGED" then (.error .errPRMerged, st)
    else
      let reviewers := getPRReviewers st prID
      if !(reviewers.any (fun u => u.id == oldUserID)) then
        (.error .errNotAssigned, st)
      else
        match getUserTeam st oldUserID with
        | none => (.error (.internalMsg "old reviewer has no team"), st)
        | some teamName =>
          match getRandomActiveTeamMember st teamName oldUserID shuffle with
          | none => (.error .errNoCandidate, st)
          | some newReviewer =>
            let st1 := removeReviewer st prID oldUserID
            let st2 := addReviewer st1 prID newReviewer.id
            let st3 := addAssignmentEvent st2 prID newReviewer.id
            (.ok (⟨pr.id, pr.title, pr.authorID, pr.status,
              getPRReviewers st3 prID⟩, newReviewer.id), st3)

/-- `Service.BulkDeactivateTeam`: NotFound when the team is absent;
otherwise deactivate every member.  The `reassign` flag is accepted and
ignored (no cascading reassignment is performed). -/
def BulkDeactivateTeam (st : Store) (teamName : String) (_reassign : Bool) :
    Except SvcError Unit × Store :=
  match getTeamByName st teamName with
  | none => (.error .errNotFound, st)
  | some team => (.ok (), deactivateTeamMembers st team.id)

/-- `Service.GetStats`: the per-user assignment-event counts.  (The Go
wrapper returns this table under an "assignment_stats" key next to a
wall-clock timestamp; the timestamp is presentation only and not part of
the state model.) -/
def GetStats (st : Store) : List (String × Nat) :=
  getAssignmentStats st

/-! ### Engine operation traces -/

/-- One externally invokable engine operation, with the random reordering
an operation would draw carried as data. -/
inductive Op where
  | opCreateTeam (name : String) (members : List TeamMember)
  | opSetUserActive (userID : String) (active : Bool)
  | opCreatePR (prID title authorID : String) (shuffle : List User → List User)
  | opMergePR (prID : String)
  | opReassign (prID oldUserID : String) (shuffle : List User → List User)
  | opBulkDeactivate (teamName : String) (reassign : Bool)

/-- The state reached after one engine operation (results discarded). -/
def step (st : Store) : Op → Store
  | .opCreateTeam n ms => (CreateTeam st n ms).2
  | .opSetUserActive u a => (SetUserActiveSvc st u a).2
  | .opCreatePR p t a sh => (CreatePR st p t a sh).2
  | .opMergePR p => (MergePR st p).2
  | .opReassign p o sh => (ReassignReviewer st p o sh).2
  | .opBulkDeactivate n r => (BulkDeactivateTeam st n r).2

/-- The state after a sequence of engine operations. -/
def run (st : Store) (ops : List Op) : Store :=
  ops.foldl step st

/-- The number of reviewer bindings currently on a PR (rows of
pr_reviewers keyed by the PR id). -/
def bindingsOn (st : Store) (prID : String) : Nat :=
  st.prReviewers.countP (fun x => x.1 == prID)

/-! ### C5: ReassignReviewer on a MERGED PR -/

/-- C5: `ReassignReviewer` on a PR whose status is MERGED fails with
`AlreadyMerged` (`ErrPRMerged`) and returns the store unchanged, so the
reviewer bindings and all other state are untouched. -/
theorem reassign_on_merged_fails_and_preserves_state (st : Store)
    (prID oldUserID : String) (shuffle : List User → List User) (pr : PRRow)
    (h1 : getPRByID st prID = some pr) (h2 : pr.status = "MERGED") :
    ReassignReviewer st prID oldUserID shuffle = (.error .errPRMerged, st) := by
  simp [ReassignReviewer, h1, h2]

/-- A store holding one MERGED PR, used to instantiate the C5 theorem. -/
def mergedOnlyStore : Store :=
  { emptyStore with prs := [⟨"pr1", "T", "a", "MERGED"⟩] }

theorem reassign_on_merged_witness :
    ReassignReviewer mergedOnlyStore "pr1" "r1" id = (.error .errPRMerged, mergedOnlyStore) :=
  reassign_on_merged_fails_and_preserves_state mergedOnlyStore "pr1" "r1" id
    ⟨"pr1", "T", "a", "MERGED"⟩ rfl rfl

/-! ### C4: error priority of ReassignReviewer -/

/-- C4: `ReassignReviewer` fails with exactly the typed error of the first
violated precondition, checked in order: NotFound when the PR is absent,
AlreadyMerged when its status is MERGED, NotAssigned when the old reviewer
is not bound on the PR, the untyped internal error when the old reviewer
has no team, and NoCandidate when no active replacement exists in that
team. -/
theorem reassign_error_priority (st : Store) (prID oldUserID : String)
    (shuffle : List User → List User) :
    (getPRByID st prID = none →
      (ReassignReviewer st prID oldUserID shuffle).1 = .error .errNotFound)
    ∧ (∀ pr, getPRByID st prID = some pr → pr.status = "MERGED" →
      (ReassignReviewer st prID oldUserID shuffle).1 = .error .errPRMerged)
    ∧ (∀ pr, getPRByID st prID = some pr → pr.status ≠ "MERGED" →
      (getPRReviewers st prID).any (fun u => u.id == oldUserID) = false →
      (ReassignReviewer st prID oldUserID shuffle).1 = .error .errNotAssigned)
    ∧ (∀ pr, getPRByID st prID = some pr → pr.status ≠ "MERGED" →
      (getPRReviewers st prID).any (fun u => u.id == oldUserID) = true →
      getUserTeam st oldUserID = none →
      (ReassignReviewer st prID oldUserID shuffle).1
        = .error (.internalMsg "old reviewer has no team"))
    ∧ (∀ pr tn, getPRByID st prID = some pr → pr.status ≠ "MERGED" →
      (getPRReviewers st prID).any (fun u => u.id == oldUserID) = true →
      getUserTeam st oldUserID = some tn →
      getRandomActiveTeamMember st tn oldUserID shuffle = none →
      (ReassignReviewer st prID oldUserID shuffle).1 = .error .errNoCandidate) := by
  refine ⟨?_, ?_, ?_, ?_, ?_⟩
  · intro h
    simp [ReassignReviewer, h]
  · intro pr h hm
    simp [ReassignReviewer, h, hm]
  · intro pr h hm hany
    unfold ReassignReviewer
    rw [h]
    simp only [hany]
    simp [hm]
  · intro pr h hm hany htn
    unfold ReassignReviewer
    rw [h]
    simp only [hany]
    simp [hm, htn]
  · intro pr tn h hm hany htn hnc
    unfold ReassignReviewer
    rw [h]
    simp only [hany]
    simp [hm, htn, hnc]

theorem reassign_error_priority_witness :
    (ReassignReviewer emptyStore "pr1" "r1" id).1 = Except.error .errNotFound :=
  (reassign_error_priority emptyStore "pr1" "r1" id).1 rfl

/-! ### C2: CreatePR for an author without a team -/

/-- A store with one known user that belongs to no team. -/
def soloAuthorStore : Store := ⟨[⟨"u1", "U", true⟩], [], [], [], [], []⟩

/-- C2 counterexample: with a fresh PR id and a known author that belongs
to no team, `CreatePR` does not succeed — it returns the untyped internal
error "author has no team" and leaves the store unchanged, so no PR with
status OPEN and an empty reviewer set is ever returned or persisted. -/
theorem createPR_no_team_counterexample :
    prExists soloAuthorStore "pr1" = false
    ∧ getUserByID soloAuthorStore "u1" = some ⟨"u1", "U", true⟩
    ∧ getUserTeam soloAuthorStore "u1" = none
    ∧ CreatePR soloAuthorStore "pr1" "T" "u1" id
        = (.error (.internalMsg "author has no team"), soloAuthorStore) :=
  ⟨rfl, rfl, rfl, rfl⟩

/-- C2 (amended): when the prID is fresh and the authorID resolves to a
known user that belongs to no team, `CreatePR` fails with the untyped
internal error "author has no team" and persists nothing. -/
theorem createPR_no_team_internal_error (st : Store)
    (prID prName authorID : String) (shuffle : List User → List User) (u : User)
    (h1 : prExists st prID = false)
    (h2 : getUserByID st authorID = some u)
    (h3 : getUserTeam st authorID = none) :
    CreatePR st prID prName authorID shuffle
      = (.error (.internalMsg "author has no team"), st) := by
  simp [CreatePR, h1, h2, h3]

theorem createPR_no_team_witness :
    CreatePR soloAuthorStore "pr1" "T" "u1" id
      = (.error (.internalMsg "author has no team"), soloAuthorStore) :=
  createPR_no_team_internal_error soloAuthorStore "pr1" "T" "u1" id
    ⟨"u1", "U", true⟩ rfl rfl rfl

/-! ### C1: the author can become a reviewer of their own PR -/

/-- Team "t" with active author "a" and active reviewer "r1". -/
def authorTeamStore : Store :=
  (CreateTeam emptyStore "t" [⟨"a", "A", true⟩, ⟨"r1", "R", true⟩]).2

/-- `authorTeamStore` after `CreatePR "pr1"` by author "a"; the sole
candidate "r1" is assigned as reviewer. -/
def authorPRStore : Store := (CreatePR authorTeamStore "pr1" "T" "a" id).2

/-- C1 is violated by the code: `ReassignReviewer` excludes only the old
reviewer from the replacement pool, not the PR's author, so after
reassigning "r1" away the author "a" is selected and ends up bound as a
reviewer on their own PR "pr1". -/
theorem reassign_selects_author_of_pr :
    (getPRByID authorPRStore "pr1").map (fun p => p.authorID) = some "a"
    ∧ (getPRReviewers authorPRStore "pr1").map (fun u => u.id) = ["r1"]
    ∧ (ReassignReviewer authorPRStore "pr1" "r1" id).1
        = .ok (⟨"pr1", "T", "a", "OPEN", [⟨"a", "A", true⟩]⟩, "a")
    ∧ (getPRReviewers (ReassignReviewer authorPRStore "pr1" "r1" id).2 "pr1").map
        (fun u => u.id) = ["a"] :=
  ⟨rfl, rfl, rfl, rfl⟩

/-! ### C8: BulkDeactivateTeam -/

/-- C8: `BulkDeactivateTeam` fails with NotFound when the team is absent;
otherwise it succeeds, sets every current member's active flag to false,
and — regardless of the reassign flag — performs no reassignment: PR rows,
reviewer bindings, and assignment events are unchanged. -/
theorem bulkDeactivate_deactivates_and_frames (st : Store) (teamName : String)
    (flag : Bool) :
    (getTeamByName st teamName = none →
      BulkDeactivateTeam st teamName flag = (.error .errNotFound, st))
    ∧ (∀ team, getTeamByName st teamName = some team →
      (BulkDeactivateTeam st teamName flag).1 = .ok ()
      ∧ (∀ u ∈ (BulkDeactivateTeam st teamName flag).2.users,
          st.teamMembers.contains (team.id, u.id) = true → u.isActive = false)
      ∧ (BulkDeactivateTeam st teamName flag).2.prs = st.prs
      ∧ (BulkDeactivateTeam st teamName flag).2.prReviewers = st.prReviewers
      ∧ (BulkDeactivateTeam st teamName flag).2.assignments = st.assignments)
    ∧ BulkDeactivateTeam st teamName true = BulkDeactivateTeam st teamName false := by
  refine ⟨fun h => by simp [BulkDeactivateTeam, h], fun team h => ?_, rfl⟩
  refine ⟨by simp [BulkDeactivateTeam, h], fun u hu hc => ?_,
    by simp [BulkDeactivateTeam, h, deactivateTeamMembers],
    by simp [BulkDeactivateTeam, h, deactivateTeamMembers],
    by simp [BulkDeactivateTeam, h, deactivateTeamMembers]⟩
  have hu2 : u ∈ st.users.map (fun v =>
      if st.teamMembers.contains (team.id, v.id) then { v with isActive := false } else v) := by
    simpa [BulkDeactivateTeam, h, deactivateTeamMembers] using hu
  rcases List.mem_map.1 hu2 with ⟨v, hv, rfl⟩
  by_cases hmem : st.teamMembers.contains (team.id, v.id) = true
  · rw [if_pos hmem]
  · rw [if_neg hmem] at hc
    exact absurd hc hmem

/-- A team of two active users, to instantiate the C8 theorem. -/
def twoMemberTeamStore : Store :=
  (CreateTeam emptyStore "t" [⟨"u1", "A", true⟩, ⟨"u2", "B", true⟩]).2

theorem bulkDeactivate_witness :
    (BulkDeactivateTeam twoMemberTeamStore "t" false).1 = .ok ()
    ∧ ∀ u ∈ (BulkDeactivateTeam twoMemberTeamStore "t" false).2.users,
        twoMemberTeamStore.teamMembers.contains ((1 : Nat), u.id) = true →
        u.isActive = false := by
  have h := (bulkDeactivate_deactivates_and_frames twoMemberTeamStore "t" false).2.1
    ⟨1, "t"⟩ rfl
  exact ⟨h.1, h.2.1⟩

/-! ### C9: GetStats counts assignment events per user -/

theorem lookup_map_pair_self (l : List String) (f : String → Nat) (uid : String)
    (h : uid ∈ l) : (l.map (fun x => (x, f x))).lookup uid = some (f uid) := by
  induction l with
  | nil => cases h
  | cons x xs ih =>
    by_cases hx : uid = x
    · subst hx
      simp [List.lookup]
    · rcases List.mem_cons.1 h with h1 | h2
      · exact absurd h1 hx
      · simpa [List.lookup, beq_eq_false_iff_ne.2 hx] using ih h2

/-- C9: for every user id appearing in at least one AssignmentEvent,
`GetStats` maps it to the total number of assignment events naming that
user across all PRs — the full event history, with no windowing. -/
theorem getStats_counts_events (st : Store) (uid : String)
    (h : uid ∈ st.assignments.map (fun e => e.2)) :
    (GetStats st).lookup uid
      = some ((st.assignments.filter (fun e => e.2 == uid)).length) := by
  exact lookup_map_pair_self _ _ uid (List.mem_dedup.2 h)

/-- Two assignment events for "r1" and one for "r2", the scenario from the
spec's testable properties. -/
def statsScenarioStore : Store :=
  { emptyStore with assignments := [("p", "r1"), ("p", "r2"), ("q", "r1")] }

theorem getStats_counts_witness :
    (GetStats statsScenarioStore).lookup "r1" = some 2
    ∧ (GetStats statsScenarioStore).lookup "r2" = some 1 :=
  ⟨getStats_counts_events statsScenarioStore "r1" (by decide),
   getStats_counts_events statsScenarioStore "r2" (by decide)⟩

/-! ### Merge lemmas shared by C3 and C10 -/

theorem getPRByID_setPRStatus (st : Store) (prID s q : String) :
    getPRByID (setPRStatus st prID s) q
      = (getPRByID st q).map (fun p => if p.id == prID then { p with status := s } else p) := by
  show (st.prs.map (fun p => if p.id == prID then { p with status := s } else p)).find?
        (fun p => p.id == q)
      = (st.prs.find? (fun p => p.id == q)).map
        (fun p => if p.id == prID then { p with status := s } else p)
  rw [List.find?_map]
  have hpred : ((fun p : PRRow => p.id == q) ∘ fun p : PRRow =>
      if p.id == prID then { p with status := s } else p) = fun p : PRRow => p.id == q := by
    funext x
    by_cases hx : x.id == prID <;> simp [hx, Function.comp]
  rw [hpred]

theorem getPRReviewers_setPRStatus (st : Store) (prID s q : String) :
    getPRReviewers (setPRStatus st prID s) q = getPRReviewers st q := rfl

/-! ### C3: MergePR is idempotent -/

/-- C3: merging an existing PR twice returns status MERGED and the same
reviewer set both times, the second call succeeds rather than erroring,
and the second call leaves the store exactly where the first left it. -/
theorem mergePR_idempotent (st : Store) (prID : String) (pr : PRRow)
    (h : getPRByID st prID = some pr) :
    ∃ p1 p2 : PR,
      (MergePR st prID).1 = .ok p1
      ∧ (MergePR (MergePR st prID).2 prID).1 = .ok p2
      ∧ p1.status = "MERGED" ∧ p2.status = "MERGED"
      ∧ p2.reviewers = p1.reviewers
      ∧ (MergePR (MergePR st prID).2 prID).2 = (MergePR st prID).2 := by
  have hpq : pr.id = prID := by
    have hfind : st.prs.find? (fun p => p.id == prID) = some pr := h
    simpa using List.find?_some hfind
  by_cases hm : pr.status = "MERGED"
  · have e1 : MergePR st prID
        = (.ok ⟨pr.id, pr.title, pr.authorID, "MERGED", getPRReviewers st prID⟩, st) := by
      simp [MergePR, h, hm]
    refine ⟨⟨pr.id, pr.title, pr.authorID, "MERGED", getPRReviewers st prID⟩,
      ⟨pr.id, pr.title, pr.authorID, "MERGED", getPRReviewers st prID⟩,
      ?_, ?_, rfl, rfl, rfl, ?_⟩ <;> simp [e1]
  · have hm2 : (pr.status == "MERGED") = false := beq_eq_false_iff_ne.2 hm
    have e1 : MergePR st prID
        = (.ok ⟨pr.id, pr.title, pr.authorID, "MERGED",
            getPRReviewers (setPRStatus st prID "MERGED") prID⟩,
           setPRStatus st prID "MERGED") := by
      simp [MergePR, h, hm2]
    have h2 : getPRByID (setPRStatus st prID "MERGED") prID
        = some { pr with status := "MERGED" } := by
      rw [getPRByID_setPRStatus, h]
      simp [hpq]
    have e2 : MergePR (setPRStatus st prID "MERGED") prID
        = (.ok ⟨pr.id, pr.title, pr.authorID, "MERGED",
            getPRReviewers (setPRStatus st prID "MERGED") prID⟩,
           setPRStatus st prID "MERGED") := by
      simp [MergePR, h2, getPRReviewers_setPRStatus]
    refine ⟨⟨pr.id, pr.title, pr.authorID, "MERGED",
        getPRReviewers (setPRStatus st prID "MERGED") prID⟩,
      ⟨pr.id, pr.title, pr.authorID, "MERGED",
        getPRReviewers (setPRStatus st prID "MERGED") prID⟩,
      ?_, ?_, rfl, rfl, rfl, ?_⟩ <;> simp [e1, e2]

/-- An open PR with a single reviewer binding, to instantiate C3 and C10. -/
def openPRStore : Store :=
  ⟨[⟨"r1", "R", true⟩], [], [], [⟨"pr1", "T", "a", "OPEN"⟩], [("pr1", "r1")], []⟩

theorem mergePR_idempotent_witness :
    ∃ p1 p2 : PR,
      (MergePR openPRStore "pr1").1 = .ok p1
      ∧ (MergePR (MergePR openPRStore "pr1").2 "pr1").1 = .ok p2
      ∧ p1.status = "MERGED" ∧ p2.status = "MERGED"
      ∧ p2.reviewers = p1.reviewers
      ∧ (MergePR (MergePR openPRStore "pr1").2 "pr1").2 = (MergePR openPRStore "pr1").2 :=
  mergePR_idempotent openPRStore "pr1" ⟨"pr1", "T", "a", "OPEN"⟩ rfl

/-! ### C10: MergePR on an open PR only flips the status -/

/-- C10: a successful merge of an OPEN PR changes only that PR's status
field: users, teams, memberships, reviewer bindings, and assignment
events are untouched, other PRs are untouched, and the reviewer set the
merge returns equals the reviewer set immediately before the call. -/
theorem mergePR_open_frame (st : Store) (prID : String) (pr : PRRow)
    (h : getPRByID st prID = some pr) (hopen : pr.status ≠ "MERGED") :
    ∃ p : PR,
      (MergePR st prID).1 = .ok p
      ∧ p.reviewers = getPRReviewers st prID
      ∧ (MergePR st prID).2.users = st.users
      ∧ (MergePR st prID).2.teams = st.teams
      ∧ (MergePR st prID).2.teamMembers = st.teamMembers
      ∧ (MergePR st prID).2.prReviewers = st.prReviewers
      ∧ (MergePR st prID).2.assignments = st.assignments
      ∧ getPRByID (MergePR st prID).2 prID = some { pr with status := "MERGED" }
      ∧ (∀ q, q ≠ prID → getPRByID (MergePR st prID).2 q = getPRByID st q) := by
  have hpq : pr.id = prID := by
    have hfind : st.prs.find? (fun p => p.id == prID) = some pr := h
    simpa using List.find?_some hfind
  have hm2 : (pr.status == "MERGED") = false := beq_eq_false_iff_ne.2 hopen
  have e1 : MergePR st prID
      = (.ok ⟨pr.id, pr.title, pr.authorID, "MERGED",
          getPRReviewers (setPRStatus st prID "MERGED") prID⟩,
         setPRStatus st prID "MERGED") := by
    simp [MergePR, h, hm2]
  refine ⟨⟨pr.id, pr.title, pr.authorID, "MERGED",
      getPRReviewers (setPRStatus st prID "MERGED") prID⟩,
    by simp [e1], by simp [e1, getPRReviewers_setPRStatus],
    by simp [e1, setPRStatus], by simp [e1, setPRStatus],
    by simp [e1, setPRStatus], by simp [e1, setPRStatus],
    by simp [e1, setPRStatus], ?_, ?_⟩
  · rw [e1]
    show getPRByID (setPRStatus st prID "MERGED") prID = some { pr with status := "MERGED" }
    rw [getPRByID_setPRStatus, h]
    simp [hpq]
  · intro q hq
    rw [e1]
    show getPRByID (setPRStatus st prID "MERGED") q = getPRByID st q
    rw [getPRByID_setPRStatus]
    cases hq2 : getPRByID st q with
    | none => rfl
    | some p2 =>
      have hp2q : p2.id = q := by
        have hfind : st.prs.find? (fun p => p.id == q) = some p2 := hq2
        simpa using List.find?_some hfind
      have : (p2.id == prID) = false := by
        rw [hp2q]
        exact beq_eq_false_iff_ne.2 hq
      simp [this]
      exact fun hcontra => absurd (hp2q.symm.trans hcontra) hq

theorem mergePR_open_frame_witness :
    ∃ p : PR,
      (MergePR openPRStore "pr1").1 = .ok p
      ∧ p.reviewers = getPRReviewers openPRStore "pr1"
      ∧ (MergePR openPRStore "pr1").2.users = openPRStore.users
      ∧ (MergePR openPRStore "pr1").2.teams = openPRStore.teams
      ∧ (MergePR openPRStore "pr1").2.teamMembers = openPRStore.teamMembers
      ∧ (MergePR openPRStore "pr1").2.prReviewers = openPRStore.prReviewers
      ∧ (MergePR openPRStore "pr1").2.assignments = openPRStore.assignments
      ∧ getPRByID (MergePR openPRStore "pr1").2 "pr1"
          = some ⟨"pr1", "T", "a", "MERGED"⟩
      ∧ (∀ q, q ≠ "pr1" → getPRByID (MergePR openPRStore "pr1").2 q = getPRByID openPRStore q) :=
  mergePR_open_frame openPRStore "pr1" ⟨"pr1", "T", "a", "OPEN"⟩ rfl (by decide)

/-! ### Store-operation frame lemmas -/

theorem addReviewer_users (s : Store) (p r : String) :
    (addReviewer s p r).users = s.users := by
  unfold addReviewer
  split <;> rfl

theorem addReviewer_prs (s : Store) (p r : String) :
    (addReviewer s p r).prs = s.prs := by
  unfold addReviewer
  split <;> rfl

theorem addReviewer_assignments (s : Store) (p r : String) :
    (addReviewer s p r).assignments = s.assignments := by
  unfold addReviewer
  split <;> rfl

theorem mem_addReviewer_self (s : Store) (p r : String) :
    (p, r) ∈ (addReviewer s p r).prReviewers := by
  unfold addReviewer
  split
  · next h => exact List.elem_iff.1 h
  · exact List.mem_append_right _ (List.mem_singleton.2 rfl)

theorem mem_addReviewer_elim (s : Store) (p r : String) (x : String × String)
    (h : x ∈ (addReviewer s p r).prReviewers) : x ∈ s.prReviewers ∨ x = (p, r) := by
  unfold addReviewer at h
  split at h
  · exact Or.inl h
  · rcases List.mem_append.1 h with h1 | h2
    · exact Or.inl h1
    · exact Or.inr (List.mem_singleton.1 h2)

theorem getUserByID_eq_of_users_eq (s s2 : Store) (h : s.users = s2.users) :
    getUserByID s = getUserByID s2 := by
  funext uid
  unfold getUserByID
  rw [h]

/-- Reviewer-list membership projected down to the pr_reviewers table. -/
theorem mem_getPRReviewers_elim (st : Store) (prID : String) (u : User)
    (h : u ∈ getPRReviewers st prID) :
    ∃ x ∈ st.prReviewers, (x.1 == prID) = true ∧ x.2 = u.id := by
  unfold getPRReviewers at h
  rcases List.mem_filterMap.1 h with ⟨i, hi, hfind⟩
  have hid : u.id = i := by
    simp only [getUserByID] at hfind
    simpa using List.find?_some hfind
  rcases List.mem_map.1 hi with ⟨x, hx, hxi⟩
  have hx2 := List.mem_filter.1 hx
  exact ⟨x, hx2.1, hx2.2, by rw [hxi, hid]⟩

/-- A pr_reviewers row whose user exists shows up in the reviewer list. -/
theorem id_mem_getPRReviewers (st : Store) (prID i : String)
    (hpair : (prID, i) ∈ st.prReviewers) (u : User) (hu : getUserByID st i = some u) :
    i ∈ (getPRReviewers st prID).map (fun v => v.id) := by
  have hid : u.id = i := by
    simp only [getUserByID] at hu
    simpa using List.find?_some hu
  refine List.mem_map.2 ⟨u, ?_, hid⟩
  unfold getPRReviewers
  refine List.mem_filterMap.2 ⟨i, ?_, hu⟩
  refine List.mem_map.2 ⟨(prID, i), ?_, rfl⟩
  exact List.mem_filter.2 ⟨hpair, by simp⟩

/-! ### C6: successful reassignment postconditions -/

/-- C6: when `ReassignReviewer` succeeds (under any shuffle that permutes
its input, as Go's in-place shuffle and ORDER BY RANDOM() do), the old
reviewer id is absent from the returned PR's reviewer set, the returned
new reviewer id is present in it, exactly one new AssignmentEvent naming
the new reviewer has been appended to the event table, and the new
reviewer is an active user distinct from the old one. -/
theorem reassign_success_postconditions (st : Store) (prID oldUserID : String)
    (shuffle : List User → List User)
    (hperm : ∀ l : List User, (shuffle l).Perm l)
    (p : PR) (newID : String)
    (hok : (ReassignReviewer st prID oldUserID shuffle).1 = .ok (p, newID)) :
    newID ≠ oldUserID
    ∧ oldUserID ∉ p.reviewers.map (fun u => u.id)
    ∧ newID ∈ p.reviewers.map (fun u => u.id)
    ∧ (ReassignReviewer st prID oldUserID shuffle).2.assignments
        = st.assignments ++ [(prID, newID)]
    ∧ (∃ u ∈ st.users, u.id = newID ∧ u.isActive = true) := by
  rcases hpr : getPRByID st prID with _ | pr
  · have heq : (ReassignReviewer st prID oldUserID shuffle).1 = .error .errNotFound := by
      simp [ReassignReviewer, hpr]
    rw [heq] at hok
    exact absurd hok (by simp)
  rcases hm : pr.status == "MERGED" with _ | _
  case some.true =>
    have heq : (ReassignReviewer st prID oldUserID shuffle).1 = .error .errPRMerged := by
      unfold ReassignReviewer
      rw [hpr]
      simp [hm]
    rw [heq] at hok
    exact absurd hok (by simp)
  rcases hany : (getPRReviewers st prID).any (fun u => u.id == oldUserID) with _ | _
  case false.false =>
    have heq : (ReassignReviewer st prID oldUserID shuffle).1 = .error .errNotAssigned := by
      unfold ReassignReviewer
      rw [hpr]
      simp [hm, hany]
    rw [heq] at hok
    exact absurd hok (by simp)
  rcases htn : getUserTeam st oldUserID with _ | tn
  · have heq : (ReassignReviewer st prID oldUserID shuffle).1
        = .error (.internalMsg "old reviewer has no team") := by
      unfold ReassignReviewer
      rw [hpr]
      simp [hm, hany, htn]
    rw [heq] at hok
    exact absurd hok (by simp)
  rcases hnr : getRandomActiveTeamMember st tn oldUserID shuffle with _ | nr
  · have heq : (ReassignReviewer st prID oldUserID shuffle).1 = .error .errNoCandidate := by
      unfold ReassignReviewer
      rw [hpr]
      simp [hm, hany, htn, hnr]
    rw [heq] at hok
    exact absurd hok (by simp)
  have heq : ReassignReviewer st prID oldUserID shuffle
      = (.ok (⟨pr.id, pr.title, pr.authorID, pr.status,
          getPRReviewers (addAssignmentEvent (addReviewer (removeReviewer st prID oldUserID)
            prID nr.id) prID nr.id) prID⟩, nr.id),
         addAssignmentEvent (addReviewer (removeReviewer st prID oldUserID) prID nr.id)
           prID nr.id) := by
    unfold ReassignReviewer
    rw [hpr]
    simp [hm, hany, htn, hnr]
  rw [heq] at hok
  simp only [Except.ok.injEq, Prod.mk.injEq] at hok
  obtain ⟨hp, hnew⟩ := hok
  subst hnew
  subst hp
  -- facts about the selected replacement
  have hmemsh : nr ∈ shuffle (getActiveTeamMembersExcept st tn oldUserID) := by
    apply List.mem_of_mem_head?
    simpa [getRandomActiveTeamMember] using hnr
  have hmem : nr ∈ getActiveTeamMembersExcept st tn oldUserID :=
    (hperm _).mem_iff.1 hmemsh
  have hfacts : nr ∈ st.users ∧
      (nr.isActive && nr.id != oldUserID && userInTeam st tn nr.id) = true := by
    have := List.mem_filter.1 (show nr ∈ st.users.filter (fun u =>
      u.isActive && u.id != oldUserID && userInTeam st tn u.id) from hmem)
    exact this
  have hactive : nr.isActive = true := by
    have := hfacts.2
    simp at this
    exact this.1.1
  have hne : nr.id ≠ oldUserID := by
    have := hfacts.2
    simp at this
    exact this.1.2
  refine ⟨hne, ?_, ?_, ?_, ⟨nr, hfacts.1, rfl, hactive⟩⟩
  · -- the old reviewer id is gone from the refreshed reviewer list
    intro hold
    rcases List.mem_map.1 hold with ⟨u, hu, huid⟩
    rcases mem_getPRReviewers_elim _ _ _ hu with ⟨x, hx, hx1, hx2⟩
    have hx3 : x ∈ (addReviewer (removeReviewer st prID oldUserID) prID nr.id).prReviewers := hx
    rcases mem_addReviewer_elim _ _ _ _ hx3 with hxL | hxpair
    · have hfil := List.mem_filter.1 (show x ∈ st.prReviewers.filter
        (fun y => !(y.1 == prID && y.2 == oldUserID)) from hxL)
      have hcond := hfil.2
      rw [hx1] at hcond
      simp at hcond
      exact hcond (by rw [hx2, huid])
    · rw [hxpair] at hx2
      simp at hx2
      exact hne (hx2.trans huid)
  · -- the new reviewer id is in the refreshed reviewer list
    have hpair : (prID, nr.id) ∈ (addAssignmentEvent (addReviewer
        (removeReviewer st prID oldUserID) prID nr.id) prID nr.id).prReviewers :=
      mem_addReviewer_self _ _ _
    have husers : (addAssignmentEvent (addReviewer (removeReviewer st prID oldUserID)
        prID nr.id) prID nr.id).users = st.users := by
      show (addReviewer (removeReviewer st prID oldUserID) prID nr.id).users = st.users
      rw [addReviewer_users]
      rfl
    have hfindsome : ((addAssignmentEvent (addReviewer (removeReviewer st prID oldUserID)
        prID nr.id) prID nr.id).users.find? (fun v => v.id == nr.id)).isSome := by
      rw [husers]
      exact List.find?_isSome.2 ⟨nr, hfacts.1, by simp⟩
    rcases Option.isSome_iff_exists.1 hfindsome with ⟨u, hu⟩
    exact id_mem_getPRReviewers _ _ _ hpair u hu
  · -- exactly one new assignment event was appended
    rw [heq]
    show (addReviewer (removeReviewer st prID oldUserID) prID nr.id).assignments
        ++ [(prID, nr.id)] = st.assignments ++ [(prID, nr.id)]
    rw [addReviewer_assignments]
    rfl

/-- Team "t" with active users "r1" and "r2"; PR "pr1" (author outside the
team) currently reviewed by "r1". Reassigning "r1" picks "r2". -/
def reassignScenarioStore : Store :=
  ⟨[⟨"r1", "R1", true⟩, ⟨"r2", "R2", true⟩], [⟨1, "t"⟩], [(1, "r1"), (1, "r2")],
   [⟨"pr1", "T", "a", "OPEN"⟩], [("pr1", "r1")], []⟩

theorem reassign_success_witness :
    ∃ p : PR, ∃ newID : String,
      (ReassignReviewer reassignScenarioStore "pr1" "r1" id).1 = .ok (p, newID)
      ∧ newID ≠ "r1"
      ∧ "r1" ∉ p.reviewers.map (fun u => u.id)
      ∧ newID ∈ p.reviewers.map (fun u => u.id)
      ∧ (ReassignReviewer reassignScenarioStore "pr1" "r1" id).2.assignments
          = reassignScenarioStore.assignments ++ [("pr1", newID)]
      ∧ (∃ u ∈ reassignScenarioStore.users, u.id = newID ∧ u.isActive = true) := by
  refine ⟨⟨"pr1", "T", "a", "OPEN", [⟨"r2", "R2", true⟩]⟩, "r2", rfl, ?_⟩
  have h := reassign_success_postconditions reassignScenarioStore "pr1" "r1" id
    (fun l => List.Perm.refl l) ⟨"pr1", "T", "a", "OPEN", [⟨"r2", "R2", true⟩]⟩ "r2" rfl
  exact ⟨h.1, h.2.1, h.2.2.1, h.2.2.2.1, h.2.2.2.2⟩

/-! ### Counting lemmas for reviewer bindings (C7) -/

theorem bindingsOn_congr (s s2 : Store) (q : String)
    (h : s.prReviewers = s2.prReviewers) : bindingsOn s q = bindingsOn s2 q := by
  unfold bindingsOn
  rw [h]

theorem prExists_congr (s s2 : Store) (q : String) (h : s.prs = s2.prs) :
    prExists s q = prExists s2 q := by
  unfold prExists
  rw [h]

theorem countP_and_not_add (l : List (String × String)) (A B : String × String → Bool) :
    l.countP (fun x => A x && B x) + l.countP (fun x => A x && !(B x)) = l.countP A := by
  induction l with
  | nil => rfl
  | cons x xs ih =>
    by_cases hA : A x = true <;> by_cases hB : B x = true <;>
      simp [List.countP_cons, hA, hB] <;> omega

theorem bindingsOn_addReviewer_le (s : Store) (p r q : String) :
    bindingsOn (addReviewer s p r) q ≤ bindingsOn s q + 1 := by
  unfold bindingsOn addReviewer
  split
  · omega
  · rw [List.countP_append]
    have : List.countP (fun x => x.1 == q) [(p, r)] ≤ 1 := by
      by_cases h : (p == q) = true <;> simp [List.countP_cons, h]
    omega

theorem bindingsOn_addReviewer_other (s : Store) (p r q : String) (hq : q ≠ p) :
    bindingsOn (addReviewer s p r) q = bindingsOn s q := by
  unfold bindingsOn addReviewer
  split
  · rfl
  · rw [List.countP_append]
    have : List.countP (fun x => x.1 == q) [(p, r)] = 0 := by
      simp [List.countP_cons, beq_eq_false_iff_ne.2 (Ne.symm hq)]
    omega

theorem bindingsOn_removeReviewer_other (s : Store) (p o q : String) (hq : q ≠ p) :
    bindingsOn (removeReviewer s p o) q = bindingsOn s q := by
  unfold bindingsOn removeReviewer
  rw [List.countP_filter]
  apply List.countP_congr
  intro x _
  by_cases hx : (x.1 == q) = true
  · have hxp : (x.1 == p) = false := by
      have : x.1 = q := by simpa using hx
      rw [this]
      exact beq_eq_false_iff_ne.2 hq
    simp [hx, hxp]
  · simp [Bool.not_eq_true] at hx
    simp [hx]

theorem bindingsOn_removeReviewer_present (s : Store) (p o : String)
    (hpos : 0 < s.prReviewers.countP (fun x => x.1 == p && x.2 == o)) :
    bindingsOn (removeReviewer s p o) p + 1 ≤ bindingsOn s p := by
  unfold bindingsOn removeReviewer
  rw [List.countP_filter]
  have hsplit := countP_and_not_add s.prReviewers (fun x => x.1 == p) (fun x => x.2 == o)
  have hcongr : s.prReviewers.countP (fun x => (x.1 == p) && !(x.1 == p && x.2 == o))
      = s.prReviewers.countP (fun x => (x.1 == p) && !(x.2 == o)) := by
    apply List.countP_congr
    intro x _
    by_cases h1 : (x.1 == p) = true <;> by_cases h2 : (x.2 == o) = true <;> simp [h1, h2]
  rw [hcongr]
  omega

/-- The old-reviewer-is-bound check guarantees a matching pr_reviewers row. -/
theorem countP_pair_pos_of_any (st : Store) (prID o : String)
    (h : (getPRReviewers st prID).any (fun u => u.id == o) = true) :
    0 < st.prReviewers.countP (fun x => x.1 == prID && x.2 == o) := by
  rcases List.any_eq_true.1 h with ⟨u, hu, huid⟩
  have huo : u.id = o := by simpa using huid
  rcases mem_getPRReviewers_elim st prID u hu with ⟨x, hx, hx1, hx2⟩
  refine List.countP_pos_iff.2 ⟨x, hx, ?_⟩
  simp [hx1, hx2, huo]

/-! ### Per-operation frame lemmas on the PR tables (C7) -/

theorem addMember_prs (s : Store) (tid : Nat) (uid : String) :
    (addMember s tid uid).prs = s.prs := by
  unfold addMember
  split <;> rfl

theorem addMember_prReviewers (s : Store) (tid : Nat) (uid : String) :
    (addMember s tid uid).prReviewers = s.prReviewers := by
  unfold addMember
  split <;> rfl

theorem createUser_prs (s : Store) (a b : String) : (createUser s a b).prs = s.prs := by
  unfold createUser
  split <;> rfl

theorem createUser_prReviewers (s : Store) (a b : String) :
    (createUser s a b).prReviewers = s.prReviewers := by
  unfold createUser
  split <;> rfl

theorem memberFold_prs (ms : List TeamMember) (tid : Nat) (s : Store) :
    (ms.foldl (fun s m => addMember (setUserActive (createUser s m.userID m.username)
      m.userID m.isActive) tid m.userID) s).prs = s.prs := by
  induction ms generalizing s with
  | nil => rfl
  | cons m rest ih =>
    rw [List.foldl_cons, ih, addMember_prs]
    exact createUser_prs s m.userID m.username

theorem memberFold_prReviewers (ms : List TeamMember) (tid : Nat) (s : Store) :
    (ms.foldl (fun s m => addMember (setUserActive (createUser s m.userID m.username)
      m.userID m.isActive) tid m.userID) s).prReviewers = s.prReviewers := by
  induction ms generalizing s with
  | nil => rfl
  | cons m rest ih =>
    rw [List.foldl_cons, ih, addMember_prReviewers]
    exact createUser_prReviewers s m.userID m.username

theorem createTeam_pr_tables (st : Store) (n : String) (ms : List TeamMember) :
    (CreateTeam st n ms).2.prs = st.prs ∧ (CreateTeam st n ms).2.prReviewers = st.prReviewers := by
  unfold CreateTeam
  split
  · exact ⟨rfl, rfl⟩
  · exact ⟨memberFold_prs ms _ _, memberFold_prReviewers ms _ _⟩

theorem setUserActiveSvc_pr_tables (st : Store) (u : String) (a : Bool) :
    (SetUserActiveSvc st u a).2.prs = st.prs
    ∧ (SetUserActiveSvc st u a).2.prReviewers = st.prReviewers := by
  unfold SetUserActiveSvc
  cases getUserByID st u <;> exact ⟨rfl, rfl⟩

theorem bulkDeactivate_pr_tables (st : Store) (n : String) (r : Bool) :
    (BulkDeactivateTeam st n r).2.prs = st.prs
    ∧ (BulkDeactivateTeam st n r).2.prReviewers = st.prReviewers := by
  unfold BulkDeactivateTeam
  cases getTeamByName st n <;> exact ⟨rfl, rfl⟩

theorem mergePR_state (st : Store) (prID : String) :
    (MergePR st prID).2 = st ∨ (MergePR st prID).2 = setPRStatus st prID "MERGED" := by
  unfold MergePR
  cases getPRByID st prID with
  | none => exact Or.inl rfl
  | some pr =>
    dsimp only
    by_cases hm : (pr.status == "MERGED") = true
    · rw [if_pos hm]
      exact Or.inl rfl
    · rw [if_neg hm]
      exact Or.inr rfl

theorem prExists_setPRStatus (st : Store) (p s q : String) :
    prExists (setPRStatus st p s) q = prExists st q := by
  show (st.prs.map (fun r => if r.id == p then { r with status := s } else r)).any
      (fun r => r.id == q) = st.prs.any (fun r => r.id == q)
  rw [List.any_map]
  have hpred : ((fun r : PRRow => r.id == q) ∘ fun r : PRRow =>
      if r.id == p then { r with status := s } else r) = fun r : PRRow => r.id == q := by
    funext x
    by_cases hx : x.id == p <;> simp [hx, Function.comp]
  rw [hpred]

theorem assignReviewers_length_le_two (st : Store) (tn ex : String)
    (sh : List User → List User) : (assignReviewers st tn ex sh).length ≤ 2 := by
  unfold assignReviewers
  by_cases hc : ((getActiveTeamMembersExcept st tn ex).length == 0) = true
  · simp [hc]
  · simp [hc, List.length_take]

theorem assignFold_prs (rs : List User) (p : String) (s : Store) :
    (rs.foldl (fun s r => addAssignmentEvent (addReviewer s p r.id) p r.id) s).prs = s.prs := by
  induction rs generalizing s with
  | nil => rfl
  | cons r rest ih =>
    rw [List.foldl_cons, ih]
    exact addReviewer_prs s p r.id

theorem bindingsOn_assignFold_le (rs : List User) (p : String) (s : Store) :
    bindingsOn (rs.foldl (fun s r => addAssignmentEvent (addReviewer s p r.id) p r.id) s) p
      ≤ bindingsOn s p + rs.length := by
  induction rs generalizing s with
  | nil => simp
  | cons r rest ih =>
    rw [List.foldl_cons]
    have h2 : bindingsOn (addAssignmentEvent (addReviewer s p r.id) p r.id) p
        ≤ bindingsOn s p + 1 := bindingsOn_addReviewer_le s p r.id p
    have h3 := ih (addAssignmentEvent (addReviewer s p r.id) p r.id)
    simp only [List.length_cons]
    omega

theorem bindingsOn_assignFold_other (rs : List User) (p : String) (s : Store) (q : String)
    (hq : q ≠ p) :
    bindingsOn (rs.foldl (fun s r => addAssignmentEvent (addReviewer s p r.id) p r.id) s) q
      = bindingsOn s q := by
  induction rs generalizing s with
  | nil => rfl
  | cons r rest ih =>
    rw [List.foldl_cons, ih]
    exact bindingsOn_addReviewer_other s p r.id q hq

/-- The state transition of `CreatePR`: either nothing changed (an error
path) or the PR row was inserted with a fresh id and at most two selected
reviewers were folded in. -/
theorem createPR_state (st : Store) (prID t a : String) (sh : List User → List User) :
    (CreatePR st prID t a sh).2 = st
    ∨ (prExists st prID = false ∧ ∃ rs : List User, rs.length ≤ 2 ∧
        (CreatePR st prID t a sh).2
          = rs.foldl (fun s r => addAssignmentEvent (addReviewer s prID r.id) prID r.id)
              (createPRWithID st prID t a)) := by
  unfold CreatePR
  by_cases he : prExists st prID = true
  · rw [if_pos he]
    exact Or.inl rfl
  · have he2 : prExists st prID = false := by simpa using he
    rw [if_neg he]
    cases getUserByID st a with
    | none => exact Or.inl rfl
    | some u =>
      dsimp only
      cases getUserTeam st a with
      | none => exact Or.inl rfl
      | some tn =>
        dsimp only
        exact Or.inr ⟨he2, assignReviewers (createPRWithID st prID t a) tn a sh,
          assignReviewers_length_le_two _ _ _ _, rfl⟩

theorem prExists_createPRWithID_self (st : Store) (p t a : String) :
    prExists (createPRWithID st p t a) p = true := by
  unfold prExists createPRWithID
  simp [List.any_append]

theorem prExists_createPRWithID_other (st : Store) (p t a q : String) (hq : q ≠ p) :
    prExists (createPRWithID st p t a) q = prExists st q := by
  unfold prExists createPRWithID
  simp [List.any_append, beq_eq_false_iff_ne.2 (Ne.symm hq)]

/-- The state transition of `ReassignReviewer`: either nothing changed (an
error path) or the old binding was removed, one new binding added, and one
assignment event appended — with the old reviewer genuinely bound before. -/
theorem reassign_state (st : Store) (p o : String) (sh : List User → List User) :
    (ReassignReviewer st p o sh).2 = st
    ∨ ((getPRReviewers st p).any (fun u => u.id == o) = true ∧ ∃ nid : String,
        (ReassignReviewer st p o sh).2
          = addAssignmentEvent (addReviewer (removeReviewer st p o) p nid) p nid) := by
  unfold ReassignReviewer
  cases getPRByID st p with
  | none => exact Or.inl rfl
  | some pr =>
    dsimp only
    by_cases hm : (pr.status == "MERGED") = true
    · rw [if_pos hm]
      exact Or.inl rfl
    · rw [if_neg hm]
      rcases hany : (getPRReviewers st p).any (fun u => u.id == o) with _ | _
      · simp
      · simp only [Bool.not_true, Bool.false_eq_true, if_false]
        cases getUserTeam st o with
        | none => exact Or.inl rfl
        | some tn =>
          dsimp only
          cases getRandomActiveTeamMember st tn o sh with
          | none => exact Or.inl rfl
          | some nr => exact Or.inr ⟨by simp, nr.id, rfl⟩

/-- On its own PR, a reassignment never increases the binding count: the
old binding is removed before the new one is added. -/
theorem reassign_bindings_nonincreasing (st : Store) (prID oldUserID : String)
    (shuffle : List User → List User) :
    bindingsOn (ReassignReviewer st prID oldUserID shuffle).2 prID
      ≤ bindingsOn st prID := by
  rcases reassign_state st prID oldUserID shuffle with h | ⟨hany, nid, h⟩
  · rw [h]
  · rw [h]
    have h1 : bindingsOn (addAssignmentEvent (addReviewer (removeReviewer st prID oldUserID)
        prID nid) prID nid) prID
        ≤ bindingsOn (removeReviewer st prID oldUserID) prID + 1 :=
      bindingsOn_addReviewer_le _ prID nid prID
    have h2 := bindingsOn_removeReviewer_present st prID oldUserID
      (countP_pair_pos_of_any st prID oldUserID hany)
    omega

/-! ### The ≤ 2 reviewer-binding invariant over engine traces (C7) -/

/-- Every PR carries at most 2 reviewer bindings, and a PR id with no PR
row carries none. -/
def ReviewerInv (st : Store) : Prop :=
  ∀ p : String, bindingsOn st p ≤ 2 ∧ (prExists st p = false → bindingsOn st p = 0)

theorem reviewerInv_empty : ReviewerInv emptyStore := by
  intro p
  exact ⟨Nat.zero_le 2, fun _ => rfl⟩

theorem reviewerInv_step (st : Store) (op : Op) (h : ReviewerInv st) :
    ReviewerInv (step st op) := by
  cases op with
  | opCreateTeam n ms =>
    intro q
    dsimp only [step]
    have hf := createTeam_pr_tables st n ms
    rw [bindingsOn_congr _ st q hf.2, prExists_congr _ st q hf.1]
    exact h q
  | opSetUserActive u a =>
    intro q
    dsimp only [step]
    have hf := setUserActiveSvc_pr_tables st u a
    rw [bindingsOn_congr _ st q hf.2, prExists_congr _ st q hf.1]
    exact h q
  | opBulkDeactivate n r =>
    intro q
    dsimp only [step]
    have hf := bulkDeactivate_pr_tables st n r
    rw [bindingsOn_congr _ st q hf.2, prExists_congr _ st q hf.1]
    exact h q
  | opMergePR p =>
    intro q
    dsimp only [step]
    rcases mergePR_state st p with hs | hs
    · rw [hs]
      exact h q
    · show bindingsOn (MergePR st p).2 q ≤ 2 ∧ _
      rw [hs]
      rw [bindingsOn_congr (setPRStatus st p "MERGED") st q rfl, prExists_setPRStatus]
      exact h q
  | opCreatePR p t a sh =>
    intro q
    dsimp only [step]
    rcases createPR_state st p t a sh with hs | ⟨hfresh, rs, hlen, hs⟩
    · rw [hs]
      exact h q
    · show bindingsOn (CreatePR st p t a sh).2 q ≤ 2 ∧ _
      rw [hs]
      by_cases hq : q = p
      · subst hq
        have h0 : bindingsOn st q = 0 := (h q).2 hfresh
        have hle := bindingsOn_assignFold_le rs q (createPRWithID st q t a)
        have hbc : bindingsOn (createPRWithID st q t a) q = bindingsOn st q :=
          bindingsOn_congr _ st q rfl
        constructor
        · omega
        · intro hfalse
          rw [prExists_congr _ (createPRWithID st q t a) q (assignFold_prs rs q _),
            prExists_createPRWithID_self] at hfalse
          cases hfalse
      · have hbo := bindingsOn_assignFold_other rs p (createPRWithID st p t a) q hq
        have hbc : bindingsOn (createPRWithID st p t a) q = bindingsOn st q :=
          bindingsOn_congr _ st q rfl
        rw [hbo, hbc]
        rw [prExists_congr _ (createPRWithID st p t a) q (assignFold_prs rs p _),
          prExists_createPRWithID_other st p t a q hq]
        exact h q
  | opReassign p o sh =>
    intro q
    dsimp only [step]
    rcases reassign_state st p o sh with hs | ⟨hany, nid, hs⟩
    · show bindingsOn (ReassignReviewer st p o sh).2 q ≤ 2 ∧ _
      rw [hs]
      exact h q
    · show bindingsOn (ReassignReviewer st p o sh).2 q ≤ 2 ∧ _
      have hprs : (ReassignReviewer st p o sh).2.prs = st.prs := by
        rw [hs]
        show (addReviewer (removeReviewer st p o) p nid).prs = st.prs
        rw [addReviewer_prs]
        rfl
      rw [prExists_congr _ st q hprs]
      by_cases hq : q = p
      · subst hq
        have hni := reassign_bindings_nonincreasing st q o sh
        have hpos := countP_pair_pos_of_any st q o hany
        constructor
        · exact le_trans hni (h q).1
        · intro hfalse
          have h0 : bindingsOn st q = 0 := (h q).2 hfalse
          have : 0 < bindingsOn st q := by
            unfold bindingsOn
            have hsub : st.prReviewers.countP (fun x => x.1 == q && x.2 == o)
                ≤ st.prReviewers.countP (fun x => x.1 == q) := by
              apply List.countP_mono_left
              intro x hmem hx
              have hx2 : (x.1 == q) = true ∧ (x.2 == o) = true := by simpa using hx
              exact hx2.1
            omega
          omega
      · have hbq : bindingsOn (ReassignReviewer st p o sh).2 q = bindingsOn st q := by
          rw [hs]
          have h1 : bindingsOn (addAssignmentEvent (addReviewer (removeReviewer st p o) p nid)
              p nid) q = bindingsOn (addReviewer (removeReviewer st p o) p nid) q :=
            bindingsOn_congr _ _ q rfl
          rw [h1, bindingsOn_addReviewer_other _ p nid q hq,
            bindingsOn_removeReviewer_other st p o q hq]
        rw [hbq]
        exact h q

theorem reviewerInv_run (ops : List Op) (st : Store) (h : ReviewerInv st) :
    ReviewerInv (run st ops) := by
  induction ops generalizing st with
  | nil => exact h
  | cons op rest ih => exact ih (step st op) (reviewerInv_step st op h)

/-- C7: across every sequence of engine operations starting from the empty
store, every PR carries at most 2 reviewer bindings; moreover, on any
store whatsoever, `ReassignReviewer` never increases the binding count of
the PR it acts on, because the old binding is removed before the new one
is added. -/
theorem pr_has_at_most_two_reviewer_bindings :
    (∀ (ops : List Op) (prID : String), bindingsOn (run emptyStore ops) prID ≤ 2)
    ∧ (∀ (st : Store) (prID oldUserID : String) (shuffle : List User → List User),
        bindingsOn (ReassignReviewer st prID oldUserID shuffle).2 prID
          ≤ bindingsOn st prID) :=
  ⟨fun ops prID => (reviewerInv_run ops emptyStore reviewerInv_empty prID).1,
   reassign_bindings_nonincreasing⟩

end PRReview
